import Mathlib

/-!
Verification of the library management program `librarySystem.py`.

Modelling conventions:
* A Python `str` value is modelled by its UTF-8 byte sequence (`List Nat`,
  every entry below 256).  `str.encode` / `bytes.decode` round-trip is the
  identity on such sequences; the `errors="ignore"` option of `decode` only
  matters for byte blocks that were not produced by `encode`, which never
  happens for the records handled by the claims below.
* A Python `int` is `Int`; the `struct` format character `i` packs it as a
  4-byte little-endian two's-complement word, modelled explicitly.
* A data file is `Option (List Nat)`: `none` models a missing file, `some bs`
  a file whose byte contents are `bs`.
* The in-memory contents of the three data files form a `LibState`; a domain
  operation is a function `LibState → ... → Except LibError LibState` where an
  `error` result models the Python function printing a message and returning
  before any `save_*` call, so no file is written.
* The interactive `input_*` prompts are out of the core; their results appear
  as plain parameters of the operations.  `today()` is likewise a parameter.
-/

namespace LibSys

/-- One record of the books file (the dict handled by `pack_book`/`unpack_book`):
`book_id, title, author, year, copies, borrowed, status`. -/
structure Book where
  book_id : Int
  title : List Nat
  author : List Nat
  year : Int
  copies : Int
  borrowed : Int
  status : Int
deriving Repr, DecidableEq

/-- One record of the members file:
`member_id, name, email, phone, status, total_borrows`. -/
structure Member where
  member_id : Int
  name : List Nat
  email : List Nat
  phone : List Nat
  status : Int
  total_borrows : Int
deriving Repr, DecidableEq

/-- One record of the loans file:
`borrow_id, book_id, member_id, loan_date, due_date, return_date, status`. -/
structure Loan where
  borrow_id : Int
  book_id : Int
  member_id : Int
  loan_date : List Nat
  due_date : List Nat
  return_date : List Nat
  status : Int
deriving Repr, DecidableEq

/-- `pack_str` from the source: truncate the byte sequence to `length` bytes and
right-pad with zero bytes (Python `s.encode("utf-8")[:length].ljust(length, b"\x00")`). -/
def pack_str (s : List Nat) (length : Nat) : List Nat :=
  s.take length ++ List.replicate (length - (s.take length).length) 0

/-- `unpack_str` from the source: strip the trailing zero bytes
(Python `b.decode("utf-8", errors="ignore").rstrip("\x00")`). -/
def unpack_str (b : List Nat) : List Nat :=
  (b.reverse.dropWhile (fun c => c == 0)).reverse

/-- Encoding of one `struct` `i` field: 4-byte little-endian two's complement. -/
def pack_int32 (n : Int) : List Nat :=
  [(n % 4294967296).toNat % 256,
   (n % 4294967296).toNat / 256 % 256,
   (n % 4294967296).toNat / 65536 % 256,
   (n % 4294967296).toNat / 16777216 % 256]

/-- Decoding of one `struct` `i` field from its 4 little-endian bytes. -/
def unpack_int32 (b : List Nat) : Int :=
  match b with
  | [b0, b1, b2, b3] =>
      let u := b0 + 256 * b1 + 65536 * b2 + 16777216 * b3
      if u < 2147483648 then (u : Int) else (u : Int) - 4294967296
  | _ => 0

/-- `pack_book` from the source: `BOOK_STRUCT.pack` with format `i50s30siiii`
(field order `book_id, title, author, year, copies, borrowed, status`; this
format has no alignment padding, total size 100 bytes). -/
def pack_book (b : Book) : List Nat :=
  pack_int32 b.book_id ++ (pack_str b.title 50 ++ (pack_str b.author 30 ++
    (pack_int32 b.year ++ (pack_int32 b.copies ++ (pack_int32 b.borrowed ++
      pack_int32 b.status)))))

/-- `BOOK_STRUCT.size`: 4 + 50 + 30 + 4 + 4 + 4 + 4. -/
def BOOK_SIZE : Nat := 100

/-- `unpack_book` from the source: `BOOK_STRUCT.unpack` on a 100-byte block,
with `unpack_str` applied to the two string fields. -/
def unpack_book (raw : List Nat) : Book :=
  { book_id := unpack_int32 (raw.take 4),
    title := unpack_str ((raw.drop 4).take 50),
    author := unpack_str ((raw.drop 54).take 30),
    year := unpack_int32 ((raw.drop 84).take 4),
    copies := unpack_int32 ((raw.drop 88).take 4),
    borrowed := unpack_int32 ((raw.drop 92).take 4),
    status := unpack_int32 ((raw.drop 96).take 4) }

/-- The read loop of `read_all`: repeatedly take `size` bytes, stopping at a
chunk that is empty or shorter than `size`.  The structural fuel argument is
instantiated with the length of the byte sequence, which bounds the number of
iterations because each iteration consumes at least one byte. -/
def chunks_fuel (size : Nat) : Nat → List Nat → List (List Nat)
  | 0, _ => []
  | fuel + 1, bytes =>
      if 0 < size ∧ size ≤ bytes.length then
        bytes.take size :: chunks_fuel size fuel (bytes.drop size)
      else []

/-- `read_all` from the source: a missing file yields `[]`; otherwise the file
is cut into `size`-byte chunks, a trailing fragment shorter than `size` being
silently dropped. -/
def read_all (size : Nat) (file : Option (List Nat)) : List (List Nat) :=
  match file with
  | none => []
  | some bytes => chunks_fuel size bytes.length bytes

/-- `load_books` from the source: `[unpack_book(c) for c in read_all(BOOK_FILE, size)]`. -/
def load_books (file : Option (List Nat)) : List Book :=
  (read_all BOOK_SIZE file).map unpack_book

/-- `save_books` from the source: the file contents after truncating and
writing every packed record in order. -/
def save_books (list_books : List Book) : List Nat :=
  (list_books.map pack_book).flatten

/-- `next_id` from the source: 1 on an empty collection, otherwise
`max(i[key] for i in items) + 1`. -/
def next_id (items : List α) (key : α → Int) : Int :=
  match items with
  | [] => 1
  | i :: is => (is.map key).foldl max (key i) + 1

/-- The in-memory contents of the three data files. -/
structure LibState where
  books : List Book
  members : List Member
  loans : List Loan
deriving Repr, DecidableEq

/-- The failure kinds of the domain operations (spec section 7). -/
inductive LibError where
  | DuplicateId
  | NotFound
  | AlreadyDeleted
  | Conflict
  | BookUnavailable
  | MemberInvalid
  | NoCopiesAvailable
  | ActiveLoanNotFound
deriving Repr, DecidableEq

/-- The Python loop pattern `for i,x in enumerate(xs): if p(x): xs[i] = f(x); break`:
rewrite the first element satisfying `p`, keep everything else. -/
def update_first_total (p : α → Bool) (f : α → α) : List α → List α
  | [] => []
  | x :: xs => if p x then f x :: xs else x :: update_first_total p f xs

/-- The same loop pattern with a `found` flag: `none` when no element
satisfies `p` (the Python code then prints a not-found message and skips the save). -/
def update_first? (p : α → Bool) (f : α → α) : List α → Option (List α)
  | [] => none
  | x :: xs =>
      if p x then some (f x :: xs)
      else (update_first? p f xs).map (fun ys => x :: ys)

/-- Core of `add_book` for one book: reject a duplicate `book_id` (the Python
loop re-prompts, i.e. refuses the input), otherwise append a record with
`borrowed = 0`, `status = 1`. -/
def add_book (st : LibState) (bid : Int) (title author : List Nat)
    (year copies : Int) : Except LibError LibState :=
  if st.books.any (fun b => b.book_id == bid) then
    Except.error LibError.DuplicateId
  else
    Except.ok { st with books := st.books ++ [⟨bid, title, author, year, copies, 0, 1⟩] }

/-- Core of `update_book`: replace `title/author/year/copies` on the first book
with the given id and save; `NotFound` when no book matches (no save). -/
def update_book (st : LibState) (bid : Int) (title author : List Nat)
    (year copies : Int) : Except LibError LibState :=
  match update_first? (fun b => b.book_id == bid)
      (fun b => { b with title := title, author := author, year := year, copies := copies })
      st.books with
  | none => Except.error LibError.NotFound
  | some bs => Except.ok { st with books := bs }

/-- The book loop of `delete_book`: first book with the given id is flipped to
`status = 0`, unless it already has `status = 0` (then the function returns
early with the already-deleted message); no matching book yields `NotFound`. -/
def delete_book_scan (bid : Int) : List Book → Except LibError (List Book)
  | [] => Except.error LibError.NotFound
  | b :: bs =>
      if b.book_id == bid then
        if b.status == 0 then Except.error LibError.AlreadyDeleted
        else Except.ok ({ b with status := 0 } :: bs)
      else (delete_book_scan bid bs).map (fun l => b :: l)

/-- Core of `delete_book`: the active-loan check
`[l for l in loans if l.book_id == bid and l.status == 0]` runs first and
yields `Conflict`; then the book scan runs; only a successful scan saves. -/
def delete_book (st : LibState) (bid : Int) : Except LibError LibState :=
  if st.loans.any (fun l => l.book_id == bid && l.status == 0) then
    Except.error LibError.Conflict
  else
    match delete_book_scan bid st.books with
    | Except.error e => Except.error e
    | Except.ok bs => Except.ok { st with books := bs }

/-- Core of `add_member` for one member: id from `next_id`, `status = 1`,
`total_borrows = 0`, appended; never fails. -/
def add_member (st : LibState) (name email phone : List Nat) :
    Except LibError LibState :=
  Except.ok { st with members := st.members ++
    [⟨next_id st.members (fun m => m.member_id), name, email, phone, 1, 0⟩] }

/-- Core of `update_member`: replace `name/email/phone` on the first member
with the given id; `NotFound` when no member matches. -/
def update_member (st : LibState) (mid : Int) (name email phone : List Nat) :
    Except LibError LibState :=
  match update_first? (fun m => m.member_id == mid)
      (fun m => { m with name := name, email := email, phone := phone })
      st.members with
  | none => Except.error LibError.NotFound
  | some ms => Except.ok { st with members := ms }

/-- Core of `delete_member`: flip `status` to 0 on the first member with the
given id; `NotFound` when no member matches. -/
def delete_member (st : LibState) (mid : Int) : Except LibError LibState :=
  match update_first? (fun m => m.member_id == mid)
      (fun m => { m with status := 0 }) st.members with
  | none => Except.error LibError.NotFound
  | some ms => Except.ok { st with members := ms }

/-- Core of `borrow_book`.  The two `next(...)` generator searches are
`List.find?`; `book` is the first book with the given id and `status == 1`,
`member` likewise.  Checks in source order: no book → `BookUnavailable`; no
member → `MemberInvalid`; `book.borrowed >= book.copies` → `NoCopiesAvailable`.
On success: append the new loan, increment `borrowed` on the first book whose
id matches (status ignored in that loop), increment `total_borrows` on the
first member whose id matches. -/
def borrow_book (st : LibState) (book_id member_id : Int)
    (today due_date : List Nat) : Except LibError LibState :=
  match st.books.find? (fun b => b.book_id == book_id && b.status == 1) with
  | none => Except.error LibError.BookUnavailable
  | some book =>
      match st.members.find? (fun m => m.member_id == member_id && m.status == 1) with
      | none => Except.error LibError.MemberInvalid
      | some _ =>
          if book.copies ≤ book.borrowed then Except.error LibError.NoCopiesAvailable
          else
            Except.ok
              { books := update_first_total (fun b => b.book_id == book_id)
                  (fun b => { b with borrowed := b.borrowed + 1 }) st.books,
                members := update_first_total (fun m => m.member_id == member_id)
                  (fun m => { m with total_borrows := m.total_borrows + 1 }) st.members,
                loans := st.loans ++
                  [⟨next_id st.loans (fun l => l.borrow_id), book_id, member_id,
                    today, due_date, [], 0⟩] }

/-- The loan loop of `return_book`: find the first loan with the given
`borrow_id` and `status == 0`, set `return_date = today`, `status = 1`, and
report the loan's `book_id` for the book update; `none` when no active loan
matches. -/
def return_scan (borrow_id : Int) (today : List Nat) :
    List Loan → Option (List Loan × Int)
  | [] => none
  | l :: ls =>
      if l.borrow_id == borrow_id && l.status == 0 then
        some ({ l with return_date := today, status := 1 } :: ls, l.book_id)
      else (return_scan borrow_id today ls).map (fun r => (l :: r.1, r.2))

/-- Core of `return_book`: on a found active loan, mark it returned and
decrement `borrowed` (floored at 0 by `max(0, ...)`) on the first book whose id
matches the loan's `book_id`; both the loans file and the books file are then
saved.  Otherwise `ActiveLoanNotFound` and no save. -/
def return_book (st : LibState) (borrow_id : Int) (today : List Nat) :
    Except LibError LibState :=
  match return_scan borrow_id today st.loans with
  | none => Except.error LibError.ActiveLoanNotFound
  | some (loans2, bid) =>
      Except.ok
        { books := update_first_total (fun b => b.book_id == bid)
            (fun b => { b with borrowed := max 0 (b.borrowed - 1) }) st.books,
          members := st.members,
          loans := loans2 }

/-- The state persisted after running an operation: on failure every file keeps
its previous contents (the fallback state). -/
def state_after (r : Except LibError LibState) (st : LibState) : LibState :=
  match r with
  | Except.ok st2 => st2
  | Except.error _ => st

/-- Whether the operation succeeded. -/
def is_ok : Except LibError LibState → Bool
  | Except.ok _ => true
  | Except.error _ => false

/-- The capacity invariant on one book: `0 ≤ borrowed ≤ copies`. -/
def book_ok (b : Book) : Prop := 0 ≤ b.borrowed ∧ b.borrowed ≤ b.copies

/-- The capacity invariant on the whole book collection. -/
def books_ok (bs : List Book) : Prop := ∀ b ∈ bs, book_ok b

/-- A value representable by the `struct` format character `i`. -/
def int32_ok (n : Int) : Prop := -2147483648 ≤ n ∧ n < 2147483648

/-- A string field within its declared byte length, made of bytes. -/
def str_ok (s : List Nat) (len : Nat) : Prop := s.length ≤ len ∧ ∀ c ∈ s, c < 256

/-- A book record whose fields fit the declared widths (the validity notion of
the round-trip claim: string fields within their byte lengths, integer fields
within int32 range). -/
def book_valid (b : Book) : Prop :=
  int32_ok b.book_id ∧ str_ok b.title 50 ∧ str_ok b.author 30 ∧
    int32_ok b.year ∧ int32_ok b.copies ∧ int32_ok b.borrowed ∧ int32_ok b.status

/-- A string field that does not end in a zero byte (such a trailing byte is
confused with the padding by `rstrip`). -/
def str_clean (s : List Nat) : Prop := s.getLast? ≠ some 0

/-- A valid book record whose string fields carry no trailing zero byte. -/
def book_clean (b : Book) : Prop :=
  book_valid b ∧ str_clean b.title ∧ str_clean b.author

instance (b : Book) : Decidable (book_ok b) :=
  inferInstanceAs (Decidable (0 ≤ b.borrowed ∧ b.borrowed ≤ b.copies))

instance (l : List Book) : Decidable (books_ok l) :=
  List.decidableBAll book_ok l

instance (n : Int) : Decidable (int32_ok n) := by
  unfold int32_ok; infer_instance

instance (s : List Nat) (len : Nat) : Decidable (str_ok s len) := by
  unfold str_ok; infer_instance

instance (s : List Nat) : Decidable (str_clean s) := by
  unfold str_clean; infer_instance

instance (b : Book) : Decidable (book_valid b) := by
  unfold book_valid; infer_instance

instance (b : Book) : Decidable (book_clean b) := by
  unfold book_clean; infer_instance

/-- Pointwise evolution of one member record for the monotonicity claim: the
record keeps its `member_id` and never lowers `total_borrows`. -/
def member_le (o n : Member) : Prop :=
  n.member_id = o.member_id ∧ o.total_borrows ≤ n.total_borrows

/-- The member collection evolves monotonically: every already-existing
position keeps its id and never lowers its counter (new members may only be
appended at the end). -/
def members_mono (old new : List Member) : Prop :=
  List.Forall₂ member_le old (new.take old.length)

/-! ### List helper lemmas -/

theorem le_foldl_max (l : List Int) (b : Int) : b ≤ l.foldl max b := by
  induction l generalizing b with
  | nil => exact le_refl b
  | cons x t ih => exact le_trans (le_max_left b x) (ih (max b x))

theorem mem_le_foldl_max (l : List Int) (b a : Int) (ha : a ∈ l) :
    a ≤ l.foldl max b := by
  induction l generalizing b with
  | nil => cases ha
  | cons x t ih =>
      rcases List.mem_cons.mp ha with h | h
      · subst h
        exact le_trans (le_max_right b a) (le_foldl_max t (max b a))
      · exact ih (max b x) h

theorem foldl_max_mem (l : List Int) (b : Int) :
    l.foldl max b = b ∨ l.foldl max b ∈ l := by
  induction l generalizing b with
  | nil => exact Or.inl rfl
  | cons x t ih =>
      rcases ih (max b x) with h | h
      · rcases max_choice b x with h1 | h1
        · exact Or.inl (by rw [List.foldl_cons, h, h1])
        · exact Or.inr (by rw [List.foldl_cons, h, h1]; exact List.mem_cons_self x t)
      · exact Or.inr (List.mem_cons_of_mem x h)

theorem uft_id (p : α → Bool) (f : α → α) (l : List α)
    (h : ∀ x ∈ l, p x = false) :
    update_first_total p f l = l := by
  induction l with
  | nil => rfl
  | cons x xs ih =>
      simp [update_first_total, h x (List.mem_cons_self x xs),
        ih (fun y hy => h y (List.mem_cons_of_mem x hy))]

theorem update_first?_none (p : α → Bool) (f : α → α) (l : List α) :
    update_first? p f l = none ↔ ∀ x ∈ l, p x = false := by
  induction l with
  | nil => simp [update_first?]
  | cons x xs ih =>
      cases hx : p x with
      | true => simp [update_first?, hx]
      | false => simp [update_first?, hx, ih]

theorem update_first?_some (p : α → Bool) (f : α → α) (l l2 : List α)
    (h : update_first? p f l = some l2) :
    l2 = update_first_total p f l := by
  induction l generalizing l2 with
  | nil => cases h
  | cons x xs ih =>
      cases hx : p x with
      | true =>
          simp only [update_first?, hx, if_pos, Option.some.injEq] at h
          simp [update_first_total, hx, ← h]
      | false =>
          simp only [update_first?, hx, Bool.false_eq_true, if_false,
            Option.map_eq_some'] at h
          obtain ⟨ys, hys, hl2⟩ := h
          simp [update_first_total, hx, ← hl2, ih ys hys]

theorem delete_book_scan_none (bid : Int) (l : List Book)
    (h : l.find? (fun b => b.book_id == bid) = none) :
    delete_book_scan bid l = Except.error LibError.NotFound := by
  induction l with
  | nil => rfl
  | cons x xs ih =>
      cases hx : (x.book_id == bid) with
      | true => simp [List.find?_cons, hx] at h
      | false =>
          rw [List.find?_cons, hx] at h
          simp [delete_book_scan, hx, ih h, Except.map]

theorem delete_book_scan_some (bid : Int) (l : List Book) (b : Book)
    (h : l.find? (fun x => x.book_id == bid) = some b) :
    delete_book_scan bid l =
      (if b.status == 0 then Except.error LibError.AlreadyDeleted
       else Except.ok (update_first_total (fun x => x.book_id == bid)
         (fun x => { x with status := 0 }) l)) := by
  induction l with
  | nil => cases h
  | cons x xs ih =>
      cases hx : (x.book_id == bid) with
      | true =>
          rw [List.find?_cons, hx] at h
          cases h
          simp [delete_book_scan, hx, update_first_total]
      | false =>
          rw [List.find?_cons, hx] at h
          rw [delete_book_scan]
          simp only [hx, Bool.false_eq_true, if_false]
          rw [ih h]
          cases hb : (b.status == 0) with
          | true => simp [hb, Except.map]
          | false => simp [hb, Except.map, update_first_total, hx]

theorem return_scan_none (bid : Int) (td : List Nat) (l : List Loan)
    (h : l.find? (fun x => x.borrow_id == bid && x.status == 0) = none) :
    return_scan bid td l = none := by
  induction l with
  | nil => rfl
  | cons x xs ih =>
      cases hx : (x.borrow_id == bid && x.status == 0) with
      | true => simp [List.find?_cons, hx] at h
      | false =>
          rw [List.find?_cons, hx] at h
          simp [return_scan, hx, ih h]

theorem return_scan_some (bid : Int) (td : List Nat) (l : List Loan) (l0 : Loan)
    (h : l.find? (fun x => x.borrow_id == bid && x.status == 0) = some l0) :
    return_scan bid td l = some
      (update_first_total (fun x => x.borrow_id == bid && x.status == 0)
        (fun x => { x with return_date := td, status := 1 }) l, l0.book_id) := by
  induction l with
  | nil => cases h
  | cons x xs ih =>
      cases hx : (x.borrow_id == bid && x.status == 0) with
      | true =>
          rw [List.find?_cons, hx] at h
          cases h
          simp [return_scan, hx, update_first_total]
      | false =>
          rw [List.find?_cons, hx] at h
          simp [return_scan, hx, update_first_total, ih h]

theorem map_self_of (g : α → α) (l : List α) (h : ∀ x ∈ l, g x = x) :
    l.map g = l := by
  induction l with
  | nil => rfl
  | cons x xs ih =>
      rw [List.map_cons, h x (List.mem_cons_self x xs),
        ih (fun y hy => h y (List.mem_cons_of_mem x hy))]

theorem uft_eq_map (key : α → Int) (bid : Int) (f : α → α) (l : List α)
    (hn : (l.map key).Nodup) :
    update_first_total (fun x => key x == bid) f l =
      l.map (fun x => if key x == bid then f x else x) := by
  induction l with
  | nil => rfl
  | cons x xs ih =>
      rw [List.map_cons, List.nodup_cons] at hn
      cases hx : (key x == bid) with
      | true =>
          simp only [update_first_total, hx, if_true, List.map_cons]
          rw [map_self_of]
          intro y hy
          have hne : key y ≠ bid := by
            intro hk
            refine hn.1 ?_
            rw [show bid = key x from (beq_iff_eq.mp hx).symm] at hk
            exact hk ▸ List.mem_map_of_mem key hy
          simp [beq_eq_false_iff_ne.mpr hne]
      | false =>
          simp only [update_first_total, hx, Bool.false_eq_true, if_false,
            List.map_cons]
          rw [ih hn.2]

theorem uft_find?_none (key : α → Int) (bid : Int) (q : α → Bool) (f : α → α)
    (hq : ∀ x, q x = true → key x = bid)
    (hf : ∀ x, q (f x) = false)
    (l : List α) (hn : (l.map key).Nodup) :
    (update_first_total q f l).find? q = none := by
  induction l with
  | nil => rfl
  | cons x xs ih =>
      rw [List.map_cons, List.nodup_cons] at hn
      cases hx : q x with
      | true =>
          simp only [update_first_total, hx, if_true]
          rw [List.find?_cons_of_neg _ (by rw [hf x]; exact Bool.false_ne_true)]
          rw [List.find?_eq_none]
          intro y hy hqy
          refine hn.1 ?_
          have hky : key y = key x := by rw [hq y hqy, hq x hx]
          exact hky ▸ List.mem_map_of_mem key hy
      | false =>
          simp only [update_first_total, hx, Bool.false_eq_true, if_false]
          rw [List.find?_cons_of_neg _ (by rw [hx]; exact Bool.false_ne_true)]
          exact ih hn.2

theorem books_ok_uft (p : Book → Bool) (f : Book → Book) (l : List Book)
    (h : books_ok l) (hf : ∀ x ∈ l, p x = true → book_ok (f x)) :
    books_ok (update_first_total p f l) := by
  induction l with
  | nil => intro b hb; cases hb
  | cons x xs ih =>
      cases hx : p x with
      | true =>
          simp only [update_first_total, hx, if_true]
          intro y hy
          rcases List.mem_cons.mp hy with h1 | h1
          · exact h1 ▸ hf x (List.mem_cons_self x xs) hx
          · exact h y (List.mem_cons_of_mem x h1)
      | false =>
          simp only [update_first_total, hx, Bool.false_eq_true, if_false]
          intro y hy
          rcases List.mem_cons.mp hy with h1 | h1
          · exact h1 ▸ h x (List.mem_cons_self x xs)
          · exact ih (fun z hz => h z (List.mem_cons_of_mem x hz))
              (fun z hz hpz => hf z (List.mem_cons_of_mem x hz) hpz) y h1

theorem member_le_refl (m : Member) : member_le m m := ⟨rfl, le_refl _⟩

theorem members_mono_refl (l : List Member) : members_mono l l := by
  unfold members_mono
  rw [List.take_length]
  exact List.forall₂_same.mpr (fun x _ => member_le_refl x)

theorem members_mono_append (l l2 : List Member) : members_mono l (l ++ l2) := by
  unfold members_mono
  rw [List.take_left]
  exact List.forall₂_same.mpr (fun x _ => member_le_refl x)

theorem members_mono_uft (p : Member → Bool) (f : Member → Member)
    (l : List Member) (hf : ∀ x, member_le x (f x)) :
    members_mono l (update_first_total p f l) := by
  unfold members_mono
  induction l with
  | nil => exact List.Forall₂.nil
  | cons x xs ih =>
      cases hx : p x with
      | true =>
          simp only [update_first_total, hx, if_true, List.length_cons,
            List.take_succ_cons]
          refine List.Forall₂.cons (hf x) ?_
          rw [List.take_length]
          exact List.forall₂_same.mpr (fun y _ => member_le_refl y)
      | false =>
          simp only [update_first_total, hx, Bool.false_eq_true, if_false,
            List.length_cons, List.take_succ_cons]
          exact List.Forall₂.cons (member_le_refl x) ih

/-! ### Codec lemmas -/

theorem pack_int32_length (n : Int) : (pack_int32 n).length = 4 := rfl

theorem pack_str_length (s : List Nat) (len : Nat) :
    (pack_str s len).length = len := by
  simp only [pack_str, List.length_append, List.length_take, List.length_replicate]
  omega

theorem unpack_int32_cons (b0 b1 b2 b3 : Nat) :
    unpack_int32 [b0, b1, b2, b3] =
      (if b0 + 256 * b1 + 65536 * b2 + 16777216 * b3 < 2147483648 then
        ((b0 + 256 * b1 + 65536 * b2 + 16777216 * b3 : Nat) : Int)
      else ((b0 + 256 * b1 + 65536 * b2 + 16777216 * b3 : Nat) : Int) -
        4294967296) := rfl

theorem unpack_pack_int32 (n : Int) (h : int32_ok n) :
    unpack_int32 (pack_int32 n) = n := by
  obtain ⟨h1, h2⟩ := h
  have hm1 : 0 ≤ n % 4294967296 := Int.emod_nonneg n (by decide)
  have hm2 : n % 4294967296 < 4294967296 := Int.emod_lt_of_pos n (by decide)
  have htn : ((n % 4294967296).toNat : Int) = n % 4294967296 :=
    Int.toNat_of_nonneg hm1
  have hcase : n % 4294967296 = n ∨ n % 4294967296 = n + 4294967296 := by omega
  rw [pack_int32, unpack_int32_cons]
  have hu32 : (n % 4294967296).toNat < 4294967296 := by omega
  have hdig : (n % 4294967296).toNat % 256 +
      256 * ((n % 4294967296).toNat / 256 % 256) +
      65536 * ((n % 4294967296).toNat / 65536 % 256) +
      16777216 * ((n % 4294967296).toNat / 16777216 % 256) =
      (n % 4294967296).toNat := by omega
  rw [hdig]
  rcases hcase with hc | hc
  · rw [if_pos (by omega : (n % 4294967296).toNat < 2147483648)]
    omega
  · rw [if_neg (by omega : ¬ (n % 4294967296).toNat < 2147483648)]
    omega

theorem dropWhile_replicate_zero_append (k : Nat) (l : List Nat) :
    (List.replicate k 0 ++ l).dropWhile (fun c => c == 0) =
      l.dropWhile (fun c => c == 0) := by
  induction k with
  | zero => rfl
  | succ m ih => simp [List.replicate_succ, List.dropWhile_cons, ih]

theorem dropWhile_head_ne (p : Nat → Bool) (l : List Nat)
    (h : ∀ a, l.head? = some a → p a = false) :
    l.dropWhile p = l := by
  cases l with
  | nil => rfl
  | cons x xs => simp [List.dropWhile_cons, h x rfl]

theorem unpack_pack_str (s : List Nat) (len : Nat)
    (h1 : s.length ≤ len) (h2 : str_clean s) :
    unpack_str (pack_str s len) = s := by
  unfold pack_str unpack_str
  rw [List.take_of_length_le h1]
  rw [List.reverse_append, List.reverse_replicate]
  rw [dropWhile_replicate_zero_append]
  rw [dropWhile_head_ne]
  · exact List.reverse_reverse s
  · intro a ha
    rw [List.head?_reverse] at ha
    refine beq_eq_false_iff_ne.mpr ?_
    intro hz
    exact h2 (by rw [← hz]; exact ha)

theorem pack_book_length (b : Book) : (pack_book b).length = BOOK_SIZE := by
  simp only [pack_book, List.length_append, pack_int32_length, pack_str_length,
    BOOK_SIZE]

theorem unpack_pack_book (b : Book) (h : book_clean b) :
    unpack_book (pack_book b) = b := by
  obtain ⟨⟨hid, ht, ha, hy, hc, hbr, hs⟩, hct, hca⟩ := h
  have d4 : (pack_book b).drop 4 = pack_str b.title 50 ++ (pack_str b.author 30 ++
      (pack_int32 b.year ++ (pack_int32 b.copies ++ (pack_int32 b.borrowed ++
        pack_int32 b.status)))) := by
    rw [pack_book]; exact List.drop_left' (pack_int32_length _)
  have d54 : (pack_book b).drop 54 = pack_str b.author 30 ++
      (pack_int32 b.year ++ (pack_int32 b.copies ++ (pack_int32 b.borrowed ++
        pack_int32 b.status))) := by
    have e : (pack_book b).drop 54 = ((pack_book b).drop 4).drop 50 := by
      rw [List.drop_drop]
    rw [e, d4]
    exact List.drop_left' (pack_str_length _ _)
  have d84 : (pack_book b).drop 84 = pack_int32 b.year ++ (pack_int32 b.copies ++
      (pack_int32 b.borrowed ++ pack_int32 b.status)) := by
    have e : (pack_book b).drop 84 = ((pack_book b).drop 54).drop 30 := by
      rw [List.drop_drop]
    rw [e, d54]
    exact List.drop_left' (pack_str_length _ _)
  have d88 : (pack_book b).drop 88 = pack_int32 b.copies ++
      (pack_int32 b.borrowed ++ pack_int32 b.status) := by
    have e : (pack_book b).drop 88 = ((pack_book b).drop 84).drop 4 := by
      rw [List.drop_drop]
    rw [e, d84]
    exact List.drop_left' (pack_int32_length _)
  have d92 : (pack_book b).drop 92 = pack_int32 b.borrowed ++ pack_int32 b.status := by
    have e : (pack_book b).drop 92 = ((pack_book b).drop 88).drop 4 := by
      rw [List.drop_drop]
    rw [e, d88]
    exact List.drop_left' (pack_int32_length _)
  have d96 : (pack_book b).drop 96 = pack_int32 b.status := by
    have e : (pack_book b).drop 96 = ((pack_book b).drop 92).drop 4 := by
      rw [List.drop_drop]
    rw [e, d92]
    exact List.drop_left' (pack_int32_length _)
  rw [unpack_book]
  rw [show (pack_book b).take 4 = pack_int32 b.book_id from by
    rw [pack_book]; exact List.take_left' (pack_int32_length _)]
  rw [d4, d54, d84, d88, d92, d96]
  rw [List.take_left' (pack_str_length b.title 50)]
  rw [List.take_left' (pack_str_length b.author 30)]
  rw [List.take_left' (pack_int32_length b.year)]
  rw [List.take_left' (pack_int32_length b.copies)]
  rw [List.take_left' (pack_int32_length b.borrowed)]
  rw [List.take_of_length_le (le_of_eq (pack_int32_length b.status))]
  rw [unpack_pack_int32 _ hid, unpack_pack_str _ _ ht.1 hct,
    unpack_pack_str _ _ ha.1 hca, unpack_pack_int32 _ hy,
    unpack_pack_int32 _ hc, unpack_pack_int32 _ hbr, unpack_pack_int32 _ hs]

/-! ### Chunking lemmas -/

theorem chunks_fuel_congr (size fuel fuel2 : Nat) (bytes : List Nat)
    (hf1 : bytes.length ≤ fuel) (hf2 : bytes.length ≤ fuel2) :
    chunks_fuel size fuel bytes = chunks_fuel size fuel2 bytes := by
  induction fuel generalizing fuel2 bytes with
  | zero =>
      cases fuel2 with
      | zero => rfl
      | succ f2 =>
          have hc : ¬ (0 < size ∧ size ≤ bytes.length) := by omega
          simp [chunks_fuel, hc]
  | succ f ih =>
      cases fuel2 with
      | zero =>
          have hc : ¬ (0 < size ∧ size ≤ bytes.length) := by omega
          simp [chunks_fuel, hc]
      | succ f2 =>
          by_cases hc : 0 < size ∧ size ≤ bytes.length
          · simp only [chunks_fuel, if_pos hc]
            have hd1 : (bytes.drop size).length ≤ f := by
              rw [List.length_drop]; omega
            have hd2 : (bytes.drop size).length ≤ f2 := by
              rw [List.length_drop]; omega
            rw [ih f2 (bytes.drop size) hd1 hd2]
          · simp only [chunks_fuel, if_neg hc]

theorem chunks_fuel_short (size fuel : Nat) (bytes : List Nat)
    (h : bytes.length < size) : chunks_fuel size fuel bytes = [] := by
  cases fuel with
  | zero => rfl
  | succ f =>
      have hc : ¬ (0 < size ∧ size ≤ bytes.length) := by omega
      simp [chunks_fuel, hc]

theorem chunks_fuel_cons (size : Nat) (b rest : List Nat) (hs : 0 < size)
    (hb : b.length = size) :
    chunks_fuel size (b ++ rest).length (b ++ rest) =
      b :: chunks_fuel size rest.length rest := by
  have hlen : (b ++ rest).length = size + rest.length := by
    rw [List.length_append, hb]
  obtain ⟨k, hk⟩ : ∃ k, (b ++ rest).length = k + 1 :=
    ⟨size + rest.length - 1, by omega⟩
  rw [hk, chunks_fuel]
  have hc : 0 < size ∧ size ≤ (b ++ rest).length := ⟨hs, by omega⟩
  rw [if_pos hc]
  rw [List.take_left' hb, List.drop_left' hb]
  rw [chunks_fuel_congr size k rest.length rest (by omega) (le_refl _)]

theorem read_all_some (size : Nat) (bytes : List Nat) :
    read_all size (some bytes) = chunks_fuel size bytes.length bytes := rfl

theorem read_all_blocks (size : Nat) (blocks : List (List Nat))
    (frag : List Nat) (hs : 0 < size) (hb : ∀ c ∈ blocks, c.length = size)
    (hf : frag.length < size) :
    read_all size (some (blocks.flatten ++ frag)) = blocks := by
  induction blocks with
  | nil =>
      rw [read_all_some, List.flatten_nil, List.nil_append]
      exact chunks_fuel_short size frag.length frag hf
  | cons c cs ih =>
      rw [read_all_some, List.flatten_cons, List.append_assoc]
      rw [chunks_fuel_cons size c (List.flatten cs ++ frag) hs
        (hb c (List.mem_cons_self c cs))]
      rw [← read_all_some]
      exact congrArg (c :: ·)
        (ih (fun x hx => hb x (List.mem_cons_of_mem c hx)))

/-! ### C9: identifier allocation -/

/-- C9: `next_id` returns 1 on the empty collection; over the ids 3, 7, 2 it
returns 8; and on any non-empty collection the returned id is strictly greater
than every existing id and is exactly one more than an existing id (hence
exactly `max + 1`). -/
theorem C9_next_id (items : List α) (key : α → Int) (hne : items ≠ []) :
    next_id ([] : List Int) id = 1 ∧
    next_id ([3, 7, 2] : List Int) id = 8 ∧
    (∀ x ∈ items, key x < next_id items key) ∧
    (next_id items key - 1) ∈ items.map key := by
  refine ⟨rfl, by decide, ?_, ?_⟩
  · match items with
    | [] => exact absurd rfl hne
    | i :: is =>
        intro x hx
        have hle : key x ≤ (is.map key).foldl max (key i) := by
          rcases List.mem_cons.mp hx with h | h
          · subst h; exact le_foldl_max (is.map key) (key x)
          · exact mem_le_foldl_max (is.map key) (key i) (key x)
              (List.mem_map_of_mem key h)
        show key x < (is.map key).foldl max (key i) + 1
        omega
  · match items with
    | [] => exact absurd rfl hne
    | i :: is =>
        show ((is.map key).foldl max (key i) + 1 - 1) ∈ (i :: is).map key
        have h : ((is.map key).foldl max (key i) + 1 - 1) =
            (is.map key).foldl max (key i) := by omega
        rw [h, List.map_cons]
        rcases foldl_max_mem (is.map key) (key i) with h2 | h2
        · rw [h2]; exact List.mem_cons_self _ _
        · exact List.mem_cons_of_mem _ h2

/-- Witness for C9 at the concrete collection with ids 3, 7, 2. -/
theorem C9_next_id_witness :
    ([3, 7, 2] : List Int) ≠ [] ∧ (3 : Int) < next_id ([3, 7, 2] : List Int) id := by
  refine ⟨by decide, ?_⟩
  exact (C9_next_id ([3, 7, 2] : List Int) id (by decide)).2.2.1 3 (by decide)

/-! ### C2: delete_book -/

/-- C2 counterexample: in a state with no book records and one Borrowed loan
referencing book id 5, `delete_book 5` yields `Conflict`, not `NotFound` as the
claim states — the borrowed-loan check runs before the existence check. -/
theorem C2_counterexample :
    delete_book ⟨[], [], [⟨1, 5, 1, [], [], [], 0⟩]⟩ 5 =
      Except.error LibError.Conflict ∧
    ¬ delete_book ⟨[], [], [⟨1, 5, 1, [], [], [], 0⟩]⟩ 5 =
      Except.error LibError.NotFound := by
  constructor
  · rfl
  · intro h
    rw [show delete_book ⟨[], [], [⟨1, 5, 1, [], [], [], 0⟩]⟩ 5 =
      Except.error LibError.Conflict from rfl] at h
    simp at h

/-- C2 (amended): `delete_book` applies its checks with Conflict first: if any
Loan with this `book_id` has `status = Borrowed` it fails with `Conflict`
(even when no book has that id); otherwise, if no book has the id, `NotFound`;
otherwise, if the first matching book is already Inactive, `AlreadyDeleted`;
otherwise the matching book's status flips to Inactive and the collection is
rewritten.  Every failure returns before any save, so the book statuses are
unchanged. -/
theorem C2_delete_book_spec (st : LibState) (bid : Int) :
    delete_book st bid =
      (if st.loans.any (fun l => l.book_id == bid && l.status == 0) then
        Except.error LibError.Conflict
      else
        match st.books.find? (fun b => b.book_id == bid) with
        | none => Except.error LibError.NotFound
        | some b =>
            if b.status == 0 then Except.error LibError.AlreadyDeleted
            else Except.ok { st with books :=
              (update_first_total (fun x => x.book_id == bid)
                (fun x => { x with status := 0 }) st.books) }) := by
  rw [delete_book]
  cases hc : st.loans.any (fun l => l.book_id == bid && l.status == 0) with
  | true => simp [hc]
  | false =>
      simp only [hc, Bool.false_eq_true, if_false]
      cases hf : st.books.find? (fun b => b.book_id == bid) with
      | none => rw [delete_book_scan_none bid st.books hf]
      | some b =>
          rw [delete_book_scan_some bid st.books b hf]
          cases hb : (b.status == 0) with
          | true => simp [hb]
          | false => simp [hb]

/-! ### C5: borrow_book precondition order -/

/-- C5: `borrow_book` checks its preconditions in a fixed order with the first
failure winning: no Active book with the id → `BookUnavailable` (regardless of
the member or the copies); else no Active member with the id →
`MemberInvalid`; else `borrowed ≥ copies` on the found book →
`NoCopiesAvailable`; every failure returns before any save, leaving the state
unchanged. -/
theorem C5_borrow_order (st : LibState) (bk mb : Int) (td dd : List Nat) :
    ((∀ b ∈ st.books, b.book_id = bk → b.status ≠ 1) →
      borrow_book st bk mb td dd = Except.error LibError.BookUnavailable) ∧
    (∀ b, st.books.find? (fun x => x.book_id == bk && x.status == 1) = some b →
      (∀ m ∈ st.members, m.member_id = mb → m.status ≠ 1) →
      borrow_book st bk mb td dd = Except.error LibError.MemberInvalid) ∧
    (∀ b, st.books.find? (fun x => x.book_id == bk && x.status == 1) = some b →
      (st.members.find? (fun m => m.member_id == mb && m.status == 1)).isSome = true →
      b.copies ≤ b.borrowed →
      borrow_book st bk mb td dd = Except.error LibError.NoCopiesAvailable) ∧
    (∀ e, borrow_book st bk mb td dd = Except.error e →
      state_after (borrow_book st bk mb td dd) st = st) := by
  refine ⟨?_, ?_, ?_, ?_⟩
  · intro hall
    have hnone : st.books.find? (fun x => x.book_id == bk && x.status == 1) = none := by
      rw [List.find?_eq_none]
      intro x hx hpx
      simp only [Bool.and_eq_true, beq_iff_eq] at hpx
      exact hall x hx hpx.1 hpx.2
    rw [borrow_book, hnone]
  · intro b hb hall
    have hnone : st.members.find? (fun m => m.member_id == mb && m.status == 1) = none := by
      rw [List.find?_eq_none]
      intro x hx hpx
      simp only [Bool.and_eq_true, beq_iff_eq] at hpx
      exact hall x hx hpx.1 hpx.2
    rw [borrow_book, hb, hnone]
  · intro b hb hm hcap
    rw [Option.isSome_iff_exists] at hm
    obtain ⟨m, hm⟩ := hm
    simp only [borrow_book, hb, hm]
    rw [if_pos hcap]
  · intro e he
    rw [he]
    rfl

/-- Witness for C5 on the empty state: no book record exists, so borrowing
fails with `BookUnavailable`. -/
theorem C5_borrow_order_witness :
    (∀ b ∈ ([] : List Book), b.book_id = 1 → b.status ≠ 1) ∧
    borrow_book ⟨[], [], []⟩ 1 1 [] [] = Except.error LibError.BookUnavailable :=
  ⟨by decide, (C5_borrow_order ⟨[], [], []⟩ 1 1 [] []).1 (by decide)⟩

/-! ### C3: return_book -/

/-- C3: `return_book` requires a loan with the given `borrow_id` and
`status = Borrowed`, failing with `ActiveLoanNotFound` otherwise (failure
returns before any save, so nothing is modified); on success it sets that
loan's `return_date` to today and its status to Returned, rewrites the loans,
decrements the matching book's `borrowed` floored at 0, and rewrites the
books, leaving members untouched.  Moreover (uniqueness of `borrow_id`
assumed) an immediately repeated return of the same `borrow_id` fails with
`ActiveLoanNotFound`, since Returned is terminal. -/
theorem C3_return_book_spec (st : LibState) (bid : Int) (td td2 : List Nat)
    (hn : (st.loans.map (fun l => l.borrow_id)).Nodup) :
    (return_book st bid td =
      (match st.loans.find? (fun x => x.borrow_id == bid && x.status == 0) with
      | none => Except.error LibError.ActiveLoanNotFound
      | some l0 => Except.ok
          { books := (update_first_total (fun b => b.book_id == l0.book_id)
              (fun b => { b with borrowed := max 0 (b.borrowed - 1) }) st.books),
            members := st.members,
            loans := (update_first_total
              (fun x => x.borrow_id == bid && x.status == 0)
              (fun x => { x with return_date := td, status := 1 })
              st.loans) })) ∧
    return_book (state_after (return_book st bid td) st) bid td2 =
      Except.error LibError.ActiveLoanNotFound := by
  have hfnd : ∀ (td3 : List Nat),
      (update_first_total (fun x => x.borrow_id == bid && x.status == 0)
        (fun x => { x with return_date := td3, status := 1 })
        st.loans).find? (fun x => x.borrow_id == bid && x.status == 0) = none := by
    intro td3
    refine uft_find?_none (fun l => l.borrow_id) bid _ _ ?_ ?_ st.loans hn
    · intro x hx
      exact beq_iff_eq.mp (Bool.and_eq_true_iff.mp hx).1
    · intro x
      simp
  cases hf : st.loans.find? (fun x => x.borrow_id == bid && x.status == 0) with
  | none =>
      have h1 : return_book st bid td = Except.error LibError.ActiveLoanNotFound := by
        rw [return_book, return_scan_none bid td st.loans hf]
      refine ⟨h1, ?_⟩
      rw [h1]
      show return_book st bid td2 = _
      rw [return_book, return_scan_none bid td2 st.loans hf]
  | some l0 =>
      have h1 : return_book st bid td = Except.ok
          { books := (update_first_total (fun b => b.book_id == l0.book_id)
              (fun b => { b with borrowed := max 0 (b.borrowed - 1) }) st.books),
            members := st.members,
            loans := (update_first_total
              (fun x => x.borrow_id == bid && x.status == 0)
              (fun x => { x with return_date := td, status := 1 })
              st.loans) } := by
        simp only [return_book, return_scan_some bid td st.loans l0 hf]
      refine ⟨h1, ?_⟩
      rw [h1]
      simp only [state_after, return_book]
      rw [return_scan_none bid td2 _ (hfnd td)]

/-- Witness for C3: one book, one member, one active loan with `borrow_id` 1;
returning it succeeds with the expected state, and a second return fails. -/
theorem C3_return_book_spec_witness :
    (([⟨1, 1, 1, [], [], [], 0⟩] : List Loan).map (fun l => l.borrow_id)).Nodup ∧
    return_book ⟨[⟨1, [], [], 0, 2, 1, 1⟩], [], [⟨1, 1, 1, [], [], [], 0⟩]⟩ 1 [50] =
      Except.ok ⟨[⟨1, [], [], 0, 2, 0, 1⟩], [], [⟨1, 1, 1, [], [], [50], 1⟩]⟩ ∧
    return_book (state_after
        (return_book ⟨[⟨1, [], [], 0, 2, 1, 1⟩], [], [⟨1, 1, 1, [], [], [], 0⟩]⟩ 1 [50])
        ⟨[⟨1, [], [], 0, 2, 1, 1⟩], [], [⟨1, 1, 1, [], [], [], 0⟩]⟩) 1 [51] =
      Except.error LibError.ActiveLoanNotFound := by
  have h := C3_return_book_spec
    ⟨[⟨1, [], [], 0, 2, 1, 1⟩], [], [⟨1, 1, 1, [], [], [], 0⟩]⟩ 1 [50] [51] (by decide)
  refine ⟨by decide, ?_, h.2⟩
  rw [h.1]
  rfl

/-! ### C10: return of a loan with a dangling book reference -/

/-- C10: when an active Loan matches `borrow_id` but its `book_id` matches no
book record, `return_book` still succeeds: the loan is marked returned with
`return_date` set, and the book collection is rewritten with every record
unchanged (no error is reported for the dangling reference). -/
theorem C10_dangling_book (st : LibState) (bid : Int) (td : List Nat) (l0 : Loan)
    (hl : st.loans.find? (fun x => x.borrow_id == bid && x.status == 0) = some l0)
    (hb : ∀ b ∈ st.books, b.book_id ≠ l0.book_id) :
    return_book st bid td = Except.ok
      { books := st.books,
        members := st.members,
        loans := update_first_total (fun x => x.borrow_id == bid && x.status == 0)
          (fun x => { x with return_date := td, status := 1 }) st.loans } := by
  simp only [return_book, return_scan_some bid td st.loans l0 hl]
  have hid : update_first_total (fun b => b.book_id == l0.book_id)
      (fun b => { b with borrowed := max 0 (b.borrowed - 1) }) st.books = st.books := by
    refine uft_id _ _ _ (fun x hx => ?_)
    exact beq_eq_false_iff_ne.mpr (hb x hx)
  rw [hid]

/-- Witness for C10: one book with id 2, one active loan for the absent book
id 99; returning loan 1 succeeds and leaves the book record unchanged. -/
theorem C10_dangling_book_witness :
    ([⟨1, 99, 1, [], [], [], 0⟩] : List Loan).find?
        (fun x => x.borrow_id == 1 && x.status == 0) = some ⟨1, 99, 1, [], [], [], 0⟩ ∧
    (∀ b ∈ ([⟨2, [], [], 0, 1, 0, 1⟩] : List Book), b.book_id ≠ (99 : Int)) ∧
    return_book ⟨[⟨2, [], [], 0, 1, 0, 1⟩], [], [⟨1, 99, 1, [], [], [], 0⟩]⟩ 1 [55] =
      Except.ok
        { books := [⟨2, [], [], 0, 1, 0, 1⟩],
          members := [],
          loans := update_first_total (fun x => x.borrow_id == 1 && x.status == 0)
            (fun x => { x with return_date := [55], status := 1 })
            [⟨1, 99, 1, [], [], [], 0⟩] } :=
  ⟨by decide, by decide,
    C10_dangling_book ⟨[⟨2, [], [], 0, 1, 0, 1⟩], [], [⟨1, 99, 1, [], [], [], 0⟩]⟩
      1 [55] ⟨1, 99, 1, [], [], [], 0⟩ (by decide) (by decide)⟩

/-! ### C4: effects of a successful borrow -/

/-- C4: when the borrow preconditions hold (pairwise distinct book ids and
member ids assumed, as the data model requires), `borrow_book` appends exactly
one new Loan carrying the `next_id`-allocated `borrow_id`,
`loan_date = today`, an empty `return_date`, status Borrowed and the given
`book_id`, `member_id`, `due_date`; increments the matching book's `borrowed`
by exactly 1; increments the matching member's `total_borrows` by exactly 1;
and changes no other record in any collection. -/
theorem C4_borrow_effects (st : LibState) (bk mb : Int) (td dd : List Nat)
    (b : Book)
    (hb : st.books.find? (fun x => x.book_id == bk && x.status == 1) = some b)
    (hm : (st.members.find? (fun m => m.member_id == mb && m.status == 1)).isSome = true)
    (hcap : b.borrowed < b.copies)
    (hnb : (st.books.map (fun x => x.book_id)).Nodup)
    (hnm : (st.members.map (fun m => m.member_id)).Nodup) :
    borrow_book st bk mb td dd = Except.ok
      { books := st.books.map (fun x => if x.book_id == bk then
          { x with borrowed := x.borrowed + 1 } else x),
        members := st.members.map (fun m => if m.member_id == mb then
          { m with total_borrows := m.total_borrows + 1 } else m),
        loans := st.loans ++ [⟨next_id st.loans (fun l => l.borrow_id), bk, mb,
          td, dd, [], 0⟩] } := by
  rw [Option.isSome_iff_exists] at hm
  obtain ⟨m, hm⟩ := hm
  simp only [borrow_book, hb, hm]
  rw [if_neg (not_le.mpr hcap)]
  rw [uft_eq_map (fun x => x.book_id) bk _ st.books hnb]
  rw [uft_eq_map (fun m => m.member_id) mb _ st.members hnm]

/-- Witness for C4: one Active book with a free copy, one Active member, no
loans; borrowing produces exactly the expected three collections. -/
theorem C4_borrow_effects_witness :
    ([⟨1, [], [], 0, 2, 1, 1⟩] : List Book).find?
        (fun x => x.book_id == 1 && x.status == 1) = some ⟨1, [], [], 0, 2, 1, 1⟩ ∧
    (1 : Int) < 2 ∧
    borrow_book ⟨[⟨1, [], [], 0, 2, 1, 1⟩], [⟨1, [], [], [], 1, 0⟩], []⟩ 1 1 [52] [53] =
      Except.ok ⟨[⟨1, [], [], 0, 2, 2, 1⟩], [⟨1, [], [], [], 1, 1⟩],
        [⟨1, 1, 1, [52], [53], [], 0⟩]⟩ := by
  refine ⟨by decide, by decide, ?_⟩
  rw [C4_borrow_effects ⟨[⟨1, [], [], 0, 2, 1, 1⟩], [⟨1, [], [], [], 1, 0⟩], []⟩
    1 1 [52] [53] ⟨1, [], [], 0, 2, 1, 1⟩ (by decide) (by decide) (by decide)
    (by decide) (by decide)]
  rfl

/-! ### C1: the capacity invariant -/

/-- C1 counterexample: the state holding the single book
`{book_id 1, copies 2, borrowed 2, Active}` satisfies the invariant, yet
`update_book` accepts `copies = 1` without comparing it to `borrowed`,
producing a persisted book with `borrowed = 2 > copies = 1`; so `updateBook`
does not preserve `0 ≤ borrowed ≤ copies`. -/
theorem C1_counterexample :
    books_ok ([⟨1, [], [], 0, 2, 2, 1⟩] : List Book) ∧
    update_book ⟨[⟨1, [], [], 0, 2, 2, 1⟩], [], []⟩ 1 [] [] 0 1 =
      Except.ok ⟨[⟨1, [], [], 0, 1, 2, 1⟩], [], []⟩ ∧
    ¬ books_ok ([⟨1, [], [], 0, 1, 2, 1⟩] : List Book) :=
  ⟨by decide, rfl, by decide⟩

/-- C1 (amended): `0 ≤ borrowed ≤ copies` is preserved by `add_book` when the
supplied `copies` is nonnegative, by `update_book` when the supplied `copies`
is at least the target book's current `borrowed` (without that bound
`update_book` violates the invariant), and unconditionally by `delete_book`,
`borrow_book` (pairwise distinct book ids assumed) and `return_book`. -/
theorem C1_capacity_invariant (st : LibState) (bid mid : Int)
    (t a td dd : List Nat) (y c : Int)
    (h : books_ok st.books)
    (hc : 0 ≤ c)
    (hu : ∀ x ∈ st.books, x.book_id = bid → x.borrowed ≤ c)
    (hn : (st.books.map (fun x => x.book_id)).Nodup) :
    books_ok (state_after (add_book st bid t a y c) st).books ∧
    books_ok (state_after (update_book st bid t a y c) st).books ∧
    books_ok (state_after (delete_book st bid) st).books ∧
    books_ok (state_after (borrow_book st bid mid td dd) st).books ∧
    books_ok (state_after (return_book st bid td) st).books := by
  refine ⟨?_, ?_, ?_, ?_, ?_⟩
  · rw [add_book]
    cases hdup : st.books.any (fun x => x.book_id == bid) with
    | true => simpa only [if_true, state_after] using h
    | false =>
        simp only [Bool.false_eq_true, if_false, state_after]
        intro x hx
        rcases List.mem_append.mp hx with h1 | h1
        · exact h x h1
        · rw [List.mem_singleton.mp h1]
          exact ⟨le_refl 0, hc⟩
  · rw [update_book]
    cases hup : update_first? (fun x => x.book_id == bid)
        (fun x => { x with title := t, author := a, year := y, copies := c })
        st.books with
    | none => simpa only [state_after] using h
    | some bs =>
        simp only [state_after]
        rw [update_first?_some _ _ _ _ hup]
        exact books_ok_uft _ _ _ h
          (fun x hx hpx => ⟨(h x hx).1, hu x hx (beq_iff_eq.mp hpx)⟩)
  · rw [delete_book]
    cases hcnf : st.loans.any (fun l => l.book_id == bid && l.status == 0) with
    | true => simpa only [if_true, state_after] using h
    | false =>
        simp only [Bool.false_eq_true, if_false]
        cases hf : st.books.find? (fun x => x.book_id == bid) with
        | none =>
            rw [delete_book_scan_none bid st.books hf]
            simpa only [state_after] using h
        | some bf =>
            rw [delete_book_scan_some bid st.books bf hf]
            cases hst : (bf.status == 0) with
            | true => simpa only [if_true, state_after] using h
            | false =>
                simp only [Bool.false_eq_true, if_false, state_after]
                exact books_ok_uft _ _ _ h (fun x hx _ => h x hx)
  · cases hfb : st.books.find? (fun x => x.book_id == bid && x.status == 1) with
    | none => simpa only [borrow_book, hfb, state_after] using h
    | some b2 =>
        cases hfm : st.members.find? (fun m => m.member_id == mid && m.status == 1) with
        | none => simpa only [borrow_book, hfb, hfm, state_after] using h
        | some m2 =>
            simp only [borrow_book, hfb, hfm]
            by_cases hcap : b2.copies ≤ b2.borrowed
            · rw [if_pos hcap]
              simpa only [state_after] using h
            · rw [if_neg hcap]
              simp only [state_after]
              refine books_ok_uft _ _ _ h ?_
              intro x hx hpx
              have hb2mem : b2 ∈ st.books := List.mem_of_find?_eq_some hfb
              have hb2p := List.find?_some hfb
              have hxb : x = b2 := by
                refine List.inj_on_of_nodup_map hn hx hb2mem ?_
                show x.book_id = b2.book_id
                rw [beq_iff_eq.mp hpx,
                  beq_iff_eq.mp (Bool.and_eq_true_iff.mp hb2p).1]
              rw [hxb]
              obtain ⟨hbo1, hbo2⟩ := h b2 hb2mem
              refine ⟨?_, ?_⟩
              · show (0 : Int) ≤ b2.borrowed + 1
                omega
              · show b2.borrowed + 1 ≤ b2.copies
                omega
  · rw [return_book]
    cases hrs : return_scan bid td st.loans with
    | none => simpa only [state_after] using h
    | some pr =>
        obtain ⟨loans2, bid2⟩ := pr
        simp only [state_after]
        refine books_ok_uft _ _ _ h ?_
        intro x hx _
        obtain ⟨hbo1, hbo2⟩ := h x hx
        refine ⟨?_, ?_⟩
        · show (0 : Int) ≤ max 0 (x.borrowed - 1)
          exact le_max_left 0 _
        · show max 0 (x.borrowed - 1) ≤ x.copies
          exact max_le (le_trans hbo1 hbo2) (by omega)

/-- Witness for C1 at a concrete invariant-satisfying state with one book,
one member and one active loan; `copies = 3` keeps `update_book` safe, and
all five operations preserve the invariant. -/
theorem C1_capacity_invariant_witness :
    books_ok ([⟨1, [], [], 0, 2, 1, 1⟩] : List Book) ∧
    (0 : Int) ≤ 3 ∧
    (∀ x ∈ ([⟨1, [], [], 0, 2, 1, 1⟩] : List Book), x.book_id = 1 → x.borrowed ≤ 3) ∧
    books_ok (state_after
      (borrow_book ⟨[⟨1, [], [], 0, 2, 1, 1⟩], [⟨1, [], [], [], 1, 0⟩],
        [⟨1, 1, 1, [], [], [], 0⟩]⟩ 1 1 [52] [53])
      ⟨[⟨1, [], [], 0, 2, 1, 1⟩], [⟨1, [], [], [], 1, 0⟩],
        [⟨1, 1, 1, [], [], [], 0⟩]⟩).books :=
  ⟨by decide, by decide, by decide,
    (C1_capacity_invariant
      ⟨[⟨1, [], [], 0, 2, 1, 1⟩], [⟨1, [], [], [], 1, 0⟩], [⟨1, 1, 1, [], [], [], 0⟩]⟩
      1 1 [] [] [52] [53] 0 3
      (by decide) (by decide) (by decide) (by decide)).2.2.2.1⟩

/-! ### C8: total_borrows is monotone -/

/-- C8: across every core operation, every existing member position keeps its
`member_id` and never lowers `total_borrows`; `add_member` appends the new
member with `total_borrows = 0`; and a successful `borrow_book` (pairwise
distinct member ids assumed) raises the matching member's counter by exactly 1
while leaving all other members unchanged. -/
theorem C8_total_borrows_monotone (st : LibState) (bid mid : Int)
    (t a nm em ph td dd : List Nat) (y c : Int)
    (hnm : (st.members.map (fun m => m.member_id)).Nodup) :
    members_mono st.members (state_after (add_book st bid t a y c) st).members ∧
    members_mono st.members (state_after (update_book st bid t a y c) st).members ∧
    members_mono st.members (state_after (delete_book st bid) st).members ∧
    members_mono st.members (state_after (add_member st nm em ph) st).members ∧
    members_mono st.members (state_after (update_member st mid nm em ph) st).members ∧
    members_mono st.members (state_after (delete_member st mid) st).members ∧
    members_mono st.members (state_after (borrow_book st bid mid td dd) st).members ∧
    members_mono st.members (state_after (return_book st bid td) st).members ∧
    (state_after (add_member st nm em ph) st).members =
      st.members ++ [⟨next_id st.members (fun m => m.member_id), nm, em, ph, 1, 0⟩] ∧
    (is_ok (borrow_book st bid mid td dd) = true →
      (state_after (borrow_book st bid mid td dd) st).members =
        st.members.map (fun m => if m.member_id == mid then
          { m with total_borrows := m.total_borrows + 1 } else m)) := by
  have hbooks : (state_after (add_book st bid t a y c) st).members = st.members := by
    rw [add_book]; split <;> rfl
  have hupd : (state_after (update_book st bid t a y c) st).members = st.members := by
    rw [update_book]; split <;> rfl
  have hdel : (state_after (delete_book st bid) st).members = st.members := by
    rw [delete_book]
    split
    · rfl
    · split <;> rfl
  have hret : (state_after (return_book st bid td) st).members = st.members := by
    rw [return_book]; split <;> rfl
  refine ⟨hbooks ▸ members_mono_refl st.members,
    hupd ▸ members_mono_refl st.members,
    hdel ▸ members_mono_refl st.members,
    ?_, ?_, ?_, ?_,
    hret ▸ members_mono_refl st.members,
    ?_, ?_⟩
  · show members_mono st.members (st.members ++ _)
    exact members_mono_append _ _
  · cases hup : update_first? (fun m => m.member_id == mid)
        (fun m => { m with name := nm, email := em, phone := ph }) st.members with
    | none => simpa only [update_member, hup, state_after] using
        members_mono_refl st.members
    | some ms =>
        simp only [update_member, hup, state_after]
        rw [update_first?_some _ _ _ _ hup]
        exact members_mono_uft _ _ _ (fun x => ⟨rfl, le_refl _⟩)
  · cases hup : update_first? (fun m => m.member_id == mid)
        (fun m => { m with status := 0 }) st.members with
    | none => simpa only [delete_member, hup, state_after] using
        members_mono_refl st.members
    | some ms =>
        simp only [delete_member, hup, state_after]
        rw [update_first?_some _ _ _ _ hup]
        exact members_mono_uft _ _ _ (fun x => ⟨rfl, le_refl _⟩)
  · cases hfb : st.books.find? (fun x => x.book_id == bid && x.status == 1) with
    | none => simpa only [borrow_book, hfb, state_after] using
        members_mono_refl st.members
    | some b2 =>
        cases hfm : st.members.find? (fun m => m.member_id == mid && m.status == 1) with
        | none => simpa only [borrow_book, hfb, hfm, state_after] using
            members_mono_refl st.members
        | some m2 =>
            simp only [borrow_book, hfb, hfm]
            by_cases hcap : b2.copies ≤ b2.borrowed
            · rw [if_pos hcap]
              exact members_mono_refl st.members
            · rw [if_neg hcap]
              simp only [state_after]
              exact members_mono_uft _ _ _
                (fun x => ⟨rfl, (by omega : x.total_borrows ≤ x.total_borrows + 1)⟩)
  · show (state_after (add_member st nm em ph) st).members = _
    rfl
  · intro hok
    cases hfb : st.books.find? (fun x => x.book_id == bid && x.status == 1) with
    | none =>
        simp only [borrow_book, hfb, is_ok] at hok
        exact Bool.noConfusion hok
    | some b2 =>
        cases hfm : st.members.find? (fun m => m.member_id == mid && m.status == 1) with
        | none =>
            simp only [borrow_book, hfb, hfm, is_ok] at hok
            exact Bool.noConfusion hok
        | some m2 =>
            simp only [borrow_book, hfb, hfm]
            by_cases hcap : b2.copies ≤ b2.borrowed
            · rw [borrow_book] at hok
              simp only [hfb, hfm, if_pos hcap, is_ok] at hok
              exact Bool.noConfusion hok
            · rw [if_neg hcap]
              simp only [state_after]
              exact uft_eq_map (fun m => m.member_id) mid _ st.members hnm

/-- Witness for C8: adding a member to a one-member state appends the new
record with `total_borrows = 0` and the allocated id. -/
theorem C8_total_borrows_monotone_witness :
    (([⟨1, [], [], [], 1, 0⟩] : List Member).map (fun m => m.member_id)).Nodup ∧
    (state_after (add_member ⟨[], [⟨1, [], [], [], 1, 0⟩], []⟩ [60] [61] [62])
      ⟨[], [⟨1, [], [], [], 1, 0⟩], []⟩).members =
      [⟨1, [], [], [], 1, 0⟩] ++
        [⟨next_id ([⟨1, [], [], [], 1, 0⟩] : List Member) (fun m => m.member_id),
          [60], [61], [62], 1, 0⟩] :=
  ⟨by decide,
    (C8_total_borrows_monotone ⟨[], [⟨1, [], [], [], 1, 0⟩], []⟩ 1 1
      [] [] [60] [61] [62] [] [] 0 0 (by decide)).2.2.2.2.2.2.2.2.1⟩

/-! ### C6: save/load round-trip -/

/-- C6 counterexample: the book whose title is the single NUL byte `0x00` is
valid in the claim's sense (each string field within its declared byte length,
each integer within int32 range), yet the save/load round-trip does not return
it: `unpack_str` strips the byte together with the padding and the title comes
back empty. -/
theorem C6_counterexample :
    book_valid ⟨1, [0], [], 0, 1, 0, 1⟩ ∧
    load_books (some (save_books [(⟨1, [0], [], 0, 1, 0, 1⟩ : Book)])) ≠
      [(⟨1, [0], [], 0, 1, 0, 1⟩ : Book)] :=
  ⟨by decide, by decide⟩

/-- C6 (amended): for every sequence of valid books whose string fields do not
end in a NUL byte, saving with `save_books` and loading with `load_books`
returns exactly the same records in the same order. -/
theorem C6_roundtrip_books (X : List Book) (h : ∀ b ∈ X, book_clean b) :
    load_books (some (save_books X)) = X := by
  have hb : ∀ c ∈ X.map pack_book, c.length = BOOK_SIZE := by
    intro c hc
    obtain ⟨b2, hb2, rfl⟩ := List.mem_map.mp hc
    exact pack_book_length b2
  have h0 : (X.map pack_book).flatten ++ [] = (X.map pack_book).flatten :=
    List.append_nil _
  unfold load_books save_books
  rw [← h0, read_all_blocks BOOK_SIZE (X.map pack_book) [] (by decide) hb
    (by decide)]
  rw [List.map_map]
  exact map_self_of _ X (fun x hx => unpack_pack_book x (h x hx))

/-- Witness for C6 on a one-book list with clean nonempty string fields. -/
theorem C6_roundtrip_books_witness :
    (∀ b ∈ [(⟨1, [72, 105], [65], 1999, 3, 1, 1⟩ : Book)], book_clean b) ∧
    load_books (some (save_books [(⟨1, [72, 105], [65], 1999, 3, 1, 1⟩ : Book)])) =
      [(⟨1, [72, 105], [65], 1999, 3, 1, 1⟩ : Book)] :=
  ⟨by decide, C6_roundtrip_books _ (by decide)⟩

/-! ### C7: lenient load of a truncated file -/

/-- C7: loading a books file holding full 100-byte blocks followed by a
trailing fragment shorter than one block returns exactly the records decoded
from the full blocks, in file order, silently discarding the fragment and
raising no error (the function is total); loading a missing file returns the
empty sequence. -/
theorem C7_lenient_load (blocks : List (List Nat)) (frag : List Nat)
    (hb : ∀ c ∈ blocks, c.length = BOOK_SIZE) (hf : frag.length < BOOK_SIZE) :
    load_books (some (blocks.flatten ++ frag)) = blocks.map unpack_book ∧
    load_books none = [] := by
  constructor
  · unfold load_books
    rw [read_all_blocks BOOK_SIZE blocks frag (by decide) hb hf]
  · rfl

/-- Witness for C7: one all-zero block followed by a 3-byte fragment. -/
theorem C7_lenient_load_witness :
    (∀ c ∈ [List.replicate 100 (0 : Nat)], c.length = BOOK_SIZE) ∧
    ([1, 2, 3] : List Nat).length < BOOK_SIZE ∧
    load_books (some ((([List.replicate 100 (0 : Nat)]).flatten) ++ [1, 2, 3])) =
      [List.replicate 100 (0 : Nat)].map unpack_book :=
  ⟨by decide, by decide,
    (C7_lenient_load [List.replicate 100 0] [1, 2, 3] (by decide) (by decide)).1⟩

end LibSys
